import Mathlib

/-!
# Verification of the rotating file log writer (`hooks/file/file.go`)

This file shallowly embeds the rotating file writer of the repository
(`logrus_file.fileLogWriter` and its operations) and settles the frozen
claims about it.

Modelling conventions:

* Go `time.Time` values are modelled as `GoTime`, a count of seconds since
  the Unix epoch (UTC).  Calendar components (`Day()`, `Hour()`, the
  `Format` layouts `2006-01-02` and `2006-01-02-15`) are computed from the
  epoch count with the standard civil-calendar algorithm, matching Go's
  proleptic Gregorian calendar in UTC.  Sub-second precision never matters
  to the embedded code.
* The filesystem is one flat directory, modelled as an association list
  from file name to `FileData` (content, modification time, permission
  bits, directory flag).  `filepath.Base` is the identity on these names.
* An open `*os.File` handle in append mode is modelled by the name the
  file was opened under (`Option String`); `nil`/closed is `none`.
  Writes append to the entry of that name and stamp its modification time.
* External, environment-caused syscall failures (a rename or write failing
  for reasons outside the modelled state) are injected through explicit
  Boolean oracle parameters; `true` means the syscall succeeds whenever
  its model-level preconditions hold.
* Go is single-threadedly embedded: the `sync.RWMutex` and the
  double-checked rotation test of `WriteMsg` collapse (both evaluations of
  `needRotate` see the same state), and the `go w.deleteOldLog()` statement
  of `restartLogger` launches a detached task, which is modelled by the
  separate `deleteOldLog` function rather than applied inline.
* Go `error` values are modelled by the inductive `GoError`; `nil` is
  `none : Option GoError`.
-/

set_option autoImplicit false

namespace LogrusFile

/-! ## Time: seconds since the Unix epoch, with civil-calendar accessors -/

/-- A Go `time.Time`, at second granularity: seconds since 1970-01-01T00:00:00Z. -/
abbrev GoTime := Int

/-- Civil date (year, month, day) from a count of days since 1970-01-01,
by the standard (Hinnant) civil-from-days algorithm with truncating
integer division, as used by Go's `time` package in UTC. -/
def civilFromDays (z0 : Int) : Int × Int × Int :=
  let z := z0 + 719468
  let era := (if 0 ≤ z then z else z - 146096) / 146097
  let doe := z - era * 146097
  let yoe := (doe - doe / 1460 + doe / 36524 - doe / 146096) / 365
  let y := yoe + era * 400
  let doy := doe - (365 * yoe + yoe / 4 - yoe / 100)
  let mp := (5 * doy + 2) / 153
  let d := doy - (153 * mp + 2) / 5 + 1
  let m := mp + (if mp < 10 then 3 else -9)
  (y + (if m ≤ 2 then 1 else 0), m, d)

/-- Days since the epoch of an instant (floor division, as real calendars need). -/
def daysOf (t : GoTime) : Int := Int.fdiv t 86400

/-- Seconds elapsed within the instant's UTC day. -/
def secsOfDay (t : GoTime) : Int := Int.emod t 86400

/-- Go `t.Year()` in UTC. -/
def yearOf (t : GoTime) : Int := (civilFromDays (daysOf t)).1

/-- Go `t.Month()` in UTC, as 1..12. -/
def monthOf (t : GoTime) : Int := (civilFromDays (daysOf t)).2.1

/-- Go `t.Day()` in UTC: the day of the month. -/
def dayOf (t : GoTime) : Int := (civilFromDays (daysOf t)).2.2

/-- Go `t.Hour()` in UTC. -/
def hourOf (t : GoTime) : Int := secsOfDay t / 3600

/-- Digit characters `0`..`9` for rendering numbers. -/
def digitChar (n : Nat) : Char :=
  match n with
  | 0 => '0' | 1 => '1' | 2 => '2' | 3 => '3' | 4 => '4'
  | 5 => '5' | 6 => '6' | 7 => '7' | 8 => '8' | _ => '9'

/-- Decimal digits of `n` (most significant first); the first argument is
recursion fuel, always called with fuel ≥ number of digits. -/
def natDigits : Nat → Nat → List Char
  | 0, _ => []
  | fuel + 1, n => if n < 10 then [digitChar n] else natDigits fuel (n / 10) ++ [digitChar (n % 10)]

/-- `n` rendered in decimal, left-padded with zeros to width `w`
(Go's `%0wd` for the nonnegative values appearing in names and dates). -/
def padNat (w n : Nat) : String :=
  let ds := natDigits (n + 1) n
  ⟨List.replicate (w - ds.length) '0' ++ ds⟩

/-- Nonnegative `Int` rendered zero-padded (all calendar components are nonnegative here). -/
def padInt (w : Nat) (i : Int) : String := padNat w i.toNat

/-- Go `t.Format("2006-01-02")` in UTC. -/
def formatDate (t : GoTime) : String :=
  padInt 4 (yearOf t) ++ "-" ++ padInt 2 (monthOf t) ++ "-" ++ padInt 2 (dayOf t)

/-- Go `t.Format("2006-01-02-15")` in UTC. -/
def formatDateHour (t : GoTime) : String :=
  formatDate t ++ "-" ++ padInt 2 (hourOf t)

/-- Go `t.Format(layout)` for the only two layouts the writer uses. -/
def goFormat (hourly : Bool) (t : GoTime) : String :=
  if hourly then formatDateHour t else formatDate t

/-! ## Byte/char utilities -/

/-- Byte length of a string (Go `len(msg)` on the UTF-8 bytes). -/
def strBytes (s : String) : Int := Int.ofNat s.utf8ByteSize

/-- Number of newline bytes in a string (`bytes.Count(_, []byte{'\n'})`
over the whole content; a newline byte in UTF-8 is exactly a newline char). -/
def countNewlines (s : String) : Nat := s.toList.count '\n'

/-! ## The ANSI escape regex and `Strip`

The source compiles
`"[\x1B\x9B][[\]()#;?]*(?:(?:(?:[a-zA-Z\d]*(?:;[a-zA-Z\d]*)*)?\x07)|(?:(?:\d{1,4}(?:;\d{0,4})*)?[\dA-PRZcf-ntqry=><~]))"`
with `regexp.MustCompile` (leftmost-first, Perl-preference semantics) and
`Strip` applies `ReplaceAllString(str, "")`.  The pattern is transcribed
into a small regex AST and matched by a backtracking matcher in
preference order (alternation tries the left branch first, `*`, `?` and
`{m,n}` are greedy), which is exactly Go's leftmost-first semantics. -/

/-- Regex AST covering the constructs of the ANSI pattern.  `cls` is a
character class given by inclusive ranges; `rep r lo hi` is greedy
`r{lo,hi}`. -/
inductive Rx where
  | eps
  | chr (c : Char)
  | cls (ranges : List (Char × Char))
  | seq (a b : Rx)
  | alt (a b : Rx)
  | opt (r : Rx)
  | star (r : Rx)
  | rep (r : Rx) (lo hi : Nat)
  deriving DecidableEq

/-- Character class membership. -/
def inCls (ranges : List (Char × Char)) (c : Char) : Bool :=
  ranges.any fun p => p.1 ≤ c && c ≤ p.2

/-- Backtracking regex matcher in preference order, in continuation style:
`rxMatch gas r l k` tries the ways `r` can match a prefix of `l`, most
preferred first, calling `k` on the corresponding leftovers and keeping
the first success — exactly a Perl-preference backtracking search.  The
structural `gas` bounds the recursion depth; `Strip` supplies gas that
dominates the search depth of the fixed ANSI pattern (each `star` body of
that pattern consumes at least one character), so the search is never
truncated there. -/
def rxMatch : Nat → Rx → List Char → (List Char → Option (List Char)) → Option (List Char)
  | 0, _, _, _ => none
  | gas + 1, r, l, k =>
    match r with
    | .eps => k l
    | .chr c =>
        match l with
        | [] => none
        | c' :: rest => if c' = c then k rest else none
    | .cls ranges =>
        match l with
        | [] => none
        | c' :: rest => if inCls ranges c' then k rest else none
    | .seq a b => rxMatch gas a l (fun l' => rxMatch gas b l' k)
    | .alt a b =>
        match rxMatch gas a l k with
        | some res => some res
        | none => rxMatch gas b l k
    | .opt r' =>
        match rxMatch gas r' l k with
        | some res => some res
        | none => k l
    | .star r' =>
        match rxMatch gas r' l (fun l' => rxMatch gas (.star r') l' k) with
        | some res => some res
        | none => k l
    | .rep r' lo hi =>
        match lo, hi with
        | 0, 0 => k l
        | 0, hi' + 1 =>
            match rxMatch gas r' l (fun l' => rxMatch gas (.rep r' 0 hi') l' k) with
            | some res => some res
            | none => k l
        | _ + 1, 0 => none
        | lo' + 1, hi' + 1 => rxMatch gas r' l (fun l' => rxMatch gas (.rep r' lo' hi') l' k)

/-- `[a-zA-Z\d]*` -/
def alnumStar : Rx := .star (.cls [('a', 'z'), ('A', 'Z'), ('0', '9')])

/-- `(?:(?:[a-zA-Z\d]*(?:;[a-zA-Z\d]*)*)?\x07)` — the BEL-terminated branch. -/
def ansiBranchBel : Rx :=
  .seq (.opt (.seq alnumStar (.star (.seq (.chr ';') alnumStar)))) (.chr '\x07')

/-- `[\dA-PRZcf-ntqry=><~]` — the final character class of the CSI branch. -/
def ansiFinalCls : Rx :=
  .cls [('0', '9'), ('A', 'P'), ('R', 'R'), ('Z', 'Z'), ('c', 'c'), ('f', 'n'),
        ('t', 't'), ('q', 'q'), ('r', 'r'), ('y', 'y'), ('=', '='), ('>', '>'),
        ('<', '<'), ('~', '~')]

/-- `(?:(?:\d{1,4}(?:;\d{0,4})*)?[\dA-PRZcf-ntqry=><~])` — the CSI branch. -/
def ansiBranchCsi : Rx :=
  .seq (.opt (.seq (.rep (.cls [('0', '9')]) 1 4)
                   (.star (.seq (.chr ';') (.rep (.cls [('0', '9')]) 0 4)))))
       ansiFinalCls

/-- The whole compiled ANSI pattern `const ansi` of the source. -/
def ansiRx : Rx :=
  .seq (.cls [('\x1b', '\x1b'), ('\x9b', '\x9b')])
       (.seq (.star (.cls [('[', '['), (']', ']'), ('(', '('), (')', ')'),
                           ('#', '#'), (';', ';'), ('?', '?')]))
             (.alt ansiBranchBel ansiBranchCsi))

/-- `re.ReplaceAllString(str, "")` over a character list: delete the
leftmost-first match at each position, scanning left to right.  The ANSI
pattern never matches the empty string, so a match always consumes input;
the structural `fuel` (at least the input length plus one) covers the
scan, and a match that consumed nothing would be skipped as a non-match. -/
def stripGo (gas : Nat) : Nat → List Char → List Char
  | 0, _ => []
  | _, [] => []
  | fuel + 1, c :: rest =>
      match rxMatch gas ansiRx (c :: rest) some with
      | some l' =>
          if l'.length < rest.length + 1 then stripGo gas fuel l'
          else c :: stripGo gas fuel rest
      | none => c :: stripGo gas fuel rest

/-- `Strip(str)`: remove all ANSI escape sequences.  The matcher gas
`(n + 8) * 16` dominates the backtracking depth of the ANSI pattern on
`n` characters. -/
def Strip (str : String) : String :=
  ⟨stripGo ((str.toList.length + 8) * 16) (str.toList.length + 1) str.toList⟩

/-! ## Filesystem model -/

/-- Metadata and content of one directory entry (`os.FileInfo` plus the
byte content).  Sizes are `content.utf8ByteSize`; `modTime` is the Unix
modification time; `perm` the permission bits. -/
structure FileData where
  content : String
  modTime : GoTime
  perm : Int
  isDir : Bool
  deriving DecidableEq

/-- The destination directory: an association list from (flat) file name
to entry data. -/
abbrev FS := List (String × FileData)

/-- Look a name up in the directory (the first binding wins). -/
def fsLookup : FS → String → Option FileData
  | [], _ => none
  | (n, d) :: rest, k => if n = k then some d else fsLookup rest k

/-- Bind a name, replacing any existing binding. -/
def fsSet : FS → String → FileData → FS
  | [], k, v => [(k, v)]
  | (n, d) :: rest, k, v => if n = k then (k, v) :: rest else (n, d) :: fsSet rest k v

/-- Remove a name's binding. -/
def fsRemove : FS → String → FS
  | [], _ => []
  | (n, d) :: rest, k => if n = k then fsRemove rest k else (n, d) :: fsRemove rest k

/-! ## Errors -/

/-- Go `error` values produced by the embedded code (`nil` is `none`).
Constructors record which operation failed and on what, mirroring the
strings the source builds with `fmt.Errorf`/`os` errors. -/
inductive GoError where
  /-- `os.Lstat`/`os.Stat`/`os.Open` on a missing path. -/
  | noEnt (path : String)
  /-- `os.Rename(src, dst)` failed. -/
  | renameFailed (src dst : String)
  /-- `fd.Write` failed (environment-injected I/O failure). -/
  | writeFailed
  /-- `fd.Write` on a closed/invalid handle. -/
  | writeClosed
  /-- `strconv.ParseInt(perm, 8, 64)` failed on a malformed permission string. -/
  | badPerm (s : String)
  /-- `os.OpenFile` failed (e.g. the path names a directory). -/
  | openFailed (path : String)
  /-- `fmt.Errorf("get stat err: %s", err)` from `initFd`. -/
  | statErr (e : GoError)
  /-- `fmt.Errorf("rotate: Cannot find free log number to rename %s", filename)`. -/
  | rotationExhausted (filename : String)
  /-- `fmt.Errorf("rotate: restartLogger startLoggerErr: %v", e)`. -/
  | restartStart (e : GoError)
  /-- `fmt.Errorf("rotate: restartLogger err: %v", e)` — wraps the error
  passed into `restartLogger` (e.g. a rename failure). -/
  | restartWrap (e : GoError)
  /-- `errors.New("jsonconfig must have filename")`. -/
  | noFilename
  /-- `json.Unmarshal` rejected the configuration payload. -/
  | jsonError
  deriving DecidableEq

/-! ## The writer -/

/-- `fileLogWriter`: the rotating file writer's configuration and mutable
state.  The embedded `sync.RWMutex` has no single-threaded content; the
open `*os.File` is the name it was opened under (`none` when closed). -/
structure fileLogWriter where
  Filename : String := ""
  fileWriter : Option String := none
  MaxLines : Int := 0
  maxLinesCurLines : Int := 0
  MaxSize : Int := 0
  maxSizeCurSize : Int := 0
  StripColors : Bool := false
  Hourly : Bool := false
  HourlyOpenDate : Int := 0
  Daily : Bool := false
  MaxDays : Int := 0
  DailyOpenDate : Int := 0
  dailyOpenTime : GoTime := 0
  Rotate : Bool := false
  Level : Int := 0
  Perm : String := ""
  RotatePerm : String := ""
  fileNameOnly : String := ""
  suffix : String := ""
  deriving DecidableEq

/-- The defaulted writer built by `newFileWriter` before `Init` applies
the configuration payload (`LevelDebug = 3`). -/
def defaultWriter : fileLogWriter :=
  { StripColors := true
    Daily := true
    Hourly := true
    MaxDays := 7
    Rotate := true
    RotatePerm := "0440"
    Level := 3
    Perm := "0660" }

/-- The world an operation acts on: the destination directory plus the
writer's state. -/
structure World where
  fs : FS
  w : fileLogWriter
  deriving DecidableEq

/-! ## Operations -/

/-- `strconv.ParseInt(s, 8, 64)`: an optional sign followed by at least
one octal digit (the 64-bit range check is immaterial for the short
permission strings this program parses and is not modelled). -/
def parseOctal (s : String) : Option Int :=
  let chars := s.toList
  let signed : Bool × List Char :=
    match chars with
    | '-' :: rest => (true, rest)
    | '+' :: rest => (false, rest)
    | _ => (false, chars)
  let rec go : List Char → Int → Option Int
    | [], acc => some acc
    | c :: rest, acc =>
        if '0' ≤ c ∧ c ≤ '7' then go rest (acc * 8 + (Int.ofNat c.toNat - Int.ofNat '0'.toNat))
        else none
  match signed with
  | (_, []) => none
  | (neg, ds) => (go ds 0).map fun v => if neg then -v else v

/-- `needRotate(size, day, hour)`: the rotation-policy decision.  Note the
`size` argument is not consulted. -/
def needRotate (w : fileLogWriter) (size : Int) (day : Int) (hour : Int) : Bool :=
  (decide (w.MaxLines > 0) && decide (w.maxLinesCurLines ≥ w.MaxLines)) ||
  (decide (w.MaxSize > 0) && decide (w.maxSizeCurSize ≥ w.MaxSize)) ||
  (w.Daily && decide (day ≠ w.DailyOpenDate)) ||
  (w.Hourly && decide (hour ≠ w.HourlyOpenDate))

/-- `formatTimeHeader(when)` builds a 24-byte textual header and returns
it together with the day-of-month and hour of `when`.  Its only caller in
this source, `WriteMsg`, discards the header bytes (`_, d, h := ...`), so
the embedding returns the `(day, hour)` pair. -/
def formatTimeHeader (when : GoTime) : Int × Int :=
  (dayOf when, hourOf when)

/-- `createLogFile()`: parse the permission string, open the destination
for append (creating it when absent; `now` is the wall clock stamped on a
newly created file), and re-apply the permission bits with `os.Chmod`
(creation alone obeys the umask).  Returns the open handle and the updated
directory. -/
def createLogFile (w : fileLogWriter) (fs : FS) (now : GoTime) :
    Option GoError × Option String × FS :=
  match parseOctal w.Perm with
  | none => (some (.badPerm w.Perm), none, fs)
  | some perm =>
    match fsLookup fs w.Filename with
    | some d =>
        if d.isDir then (some (.openFailed w.Filename), none, fs)
        else (none, some w.Filename, fsSet fs w.Filename { d with perm := perm })
    | none => (none, some w.Filename, fsSet fs w.Filename ⟨"", now, perm, false⟩)

/-- The chunked newline count of `lines()`: read up to 32768 bytes at a
time, adding `bytes.Count(chunk, "\n")` per chunk until EOF.  The
structural fuel is at least the number of chunks plus one and is never
exhausted when so supplied. -/
def linesCountGo : Nat → List Char → Nat
  | 0, _ => 0
  | fuel + 1, l =>
      if l = [] then 0
      else (l.take 32768).count '\n' + linesCountGo fuel (l.drop 32768)

/-- The newline count of a whole content, as the chunked loop computes it. -/
def linesCount (l : List Char) : Nat :=
  linesCountGo (l.length + 1) l

/-- `lines()`: open `w.Filename` afresh and count its newline bytes in
bounded chunks. -/
def lines (w : fileLogWriter) (fs : FS) : Except GoError Nat :=
  match fsLookup fs w.Filename with
  | none => .error (.noEnt w.Filename)
  | some d => .ok (linesCount d.content.toList)

/-- `initFd()`: stat the open handle; seed `maxSizeCurSize` from the file
size and the open-date markers from its modification time; if rotation and
a line limit are configured and the file is non-empty, seed
`maxLinesCurLines` from `lines()`. -/
def initFd (w : fileLogWriter) (fs : FS) : Option GoError × fileLogWriter :=
  match w.fileWriter with
  | none => (some (.statErr (.noEnt w.Filename)), w)
  | some h =>
    match fsLookup fs h with
    | none => (some (.statErr (.noEnt h)), w)
    | some fi =>
      let w := { w with
        maxSizeCurSize := strBytes fi.content
        dailyOpenTime := fi.modTime
        DailyOpenDate := dayOf fi.modTime
        HourlyOpenDate := hourOf fi.modTime
        maxLinesCurLines := 0 }
      if w.Rotate then
        if strBytes fi.content > 0 ∧ w.MaxLines > 0 then
          match lines w fs with
          | .error e => (some e, w)
          | .ok count => (none, { w with maxLinesCurLines := Int.ofNat count })
        else (none, w)
      else (none, w)

/-- `startLogger()`: create/open the log file, close any previous handle,
install the new one and run `initFd`. -/
def startLogger (w : fileLogWriter) (fs : FS) (now : GoTime) :
    Option GoError × fileLogWriter × FS :=
  match createLogFile w fs now with
  | (some e, _, _) => (some e, w, fs)
  | (none, fd, fs') =>
      let w' := { w with fileWriter := fd }
      let (e, w'') := initFd w' fs'
      (e, w'', fs')

/-- `restartLogger(err)`: rerun `startLogger` (the guaranteed reopen),
then report a `startLogger` failure, else wrap and report the passed-in
error, else succeed.  The `go w.deleteOldLog()` statement launches a
detached sweep, modelled by the separate `deleteOldLog` function rather
than applied here (see the module docs). -/
def restartLogger (err : Option GoError) (wd : World) (now : GoTime) :
    Option GoError × World :=
  let (slErr, w', fs') := startLogger wd.w wd.fs now
  match slErr with
  | some e => (some (.restartStart e), ⟨fs', w'⟩)
  | none =>
    match err with
    | some e => (some (.restartWrap e), ⟨fs', w'⟩)
    | none => (none, ⟨fs', w'⟩)

/-- `fmt.Sprintf("%s.%s.%03d%s", fileNameOnly, ts, num, suffix)` — the
numbered archival name. -/
def archiveName (w : fileLogWriter) (ts : String) (num : Nat) : String :=
  w.fileNameOnly ++ "." ++ ts ++ "." ++ padNat 3 num ++ w.suffix

/-- `fmt.Sprintf("%s.%s%s", fileNameOnly, ts, suffix)` — the unsuffixed
archival name tried first for `num == 1`. -/
def archiveNameBare (w : fileLogWriter) (ts : String) : String :=
  w.fileNameOnly ++ "." ++ ts ++ w.suffix

/-- How the name-search loop of `doRotate` ended. -/
inductive LoopExit where
  /-- The "dest file exist and no size/line limit" early return
  (`return w.restartLogger(err)` with a `nil` error). -/
  | skip
  /-- The loop finished with final values of `fName`, `num` and of
  whether the Go `err` variable was `nil`. -/
  | fin (fName : String) (num : Nat) (errNil : Bool)
  deriving DecidableEq

/-- The `for ; err == nil && num <= maxSuffixNum; num++` search of
`doRotate`, transcribed with its mutable state (`fs` changes when the
existing unsuffixed archive is renamed into the `num = 1` slot;
`renameArchiveOk` injects the environment's verdict on that rename).
Entered with `num = 1`, `fName = ""` and a `nil` error; the structural
fuel `1000` covers every possible iteration of the bounded search
(`num` runs through at most `1..999`), so the fuel-exhausted fallback is
never reached. -/
def doRotateLoop (w : fileLogWriter) (ts : String) (renameArchiveOk : Bool) :
    Nat → FS → Nat → String → Bool → FS × LoopExit
  | 0, fs, num, fName, errNil => (fs, .fin fName num errNil)
  | fuel + 1, fs, num, fName, errNil =>
    if errNil = true ∧ num ≤ 999 then
      let fName := archiveName w ts num
      match fsLookup fs fName with
      | some _ =>
          -- the candidate exists: try the next number (err stays nil)
          doRotateLoop w ts renameArchiveOk fuel fs (num + 1) fName true
      | none =>
          if num = 1 then
            let bare := archiveNameBare w ts
            match fsLookup fs bare with
            | some bd =>
                if w.MaxLines = 0 ∧ w.MaxSize = 0 then (fs, .skip)
                else if renameArchiveOk then
                  doRotateLoop w ts renameArchiveOk fuel
                    (fsSet (fsRemove fs bare) fName bd) (num + 1) fName true
                else
                  doRotateLoop w ts renameArchiveOk fuel fs (num + 1) fName false
            | none => (fs, .fin bare num false)
          else
            doRotateLoop w ts renameArchiveOk fuel fs (num + 1) fName false
    else (fs, .fin fName num errNil)

/-- `doRotate(logTime)`: choose the timestamp layout, check the active
file is still there, search for the archival name, close the handle,
rename the active file, apply the archival permission bits, and always
finish through `restartLogger`.  `logTime` also serves as the wall clock
for the fresh file created by the reopen.  `renameArchiveOk` /
`renameActiveOk` inject environment failures of the two renames. -/
def doRotate (wd : World) (logTime : GoTime) (renameArchiveOk renameActiveOk : Bool) :
    Option GoError × World :=
  let w := wd.w
  match parseOctal w.RotatePerm with
  | none => (some (.badPerm w.RotatePerm), wd)
  | some rotatePerm =>
    let ts := goFormat w.Hourly w.dailyOpenTime
    match fsLookup wd.fs w.Filename with
    | none =>
        -- even if the file does not exist, we should RESTART the logger
        restartLogger (some (.noEnt w.Filename)) wd logTime
    | some _ =>
      match doRotateLoop w ts renameArchiveOk 1000 wd.fs 1 "" true with
      | (fs', .skip) => restartLogger none ⟨fs', w⟩ logTime
      | (fs', .fin fName num errNil) =>
        if errNil = true ∧ num > 999 then
          (some (.rotationExhausted w.Filename), ⟨fs', w⟩)
        else
          -- close fileWriter before rename
          let w := { w with fileWriter := none }
          match fsLookup fs' w.Filename, renameActiveOk with
          | some d, true =>
              -- rename, then chmod the renamed file with the archival bits
              let fs'' := fsSet (fsRemove fs' w.Filename) fName { d with perm := rotatePerm }
              restartLogger none ⟨fs'', w⟩ logTime
          | _, _ =>
              restartLogger (some (.renameFailed w.Filename fName)) ⟨fs', w⟩ logTime

/-- One write attempt on the open handle (`fd.Write`): append the bytes
and stamp the modification time.  `writeOk` injects an environment I/O
failure; a closed handle fails.  (In every state the embedded operations
produce, an open handle's name is present in the directory; a missing
name is reported as a failed write.) -/
def fdWrite (fs : FS) (handle : Option String) (writeOk : Bool) (msg : String)
    (when : GoTime) : Option GoError × FS :=
  match handle with
  | none => (some .writeClosed, fs)
  | some h =>
    match fsLookup fs h with
    | none => (some .writeFailed, fs)
    | some d =>
        if writeOk then
          (none, fsSet fs h { d with content := d.content ++ msg, modTime := when })
        else (some .writeFailed, fs)

/-- The result of `WriteMsg`: the error returned to the caller, whether a
rotation was attempted (observable in the source through its stderr
diagnostics), the rotation's own error (only logged, never returned), and
the final world. -/
structure WriteRes where
  err : Option GoError
  rotated : Bool
  rotateErr : Option GoError
  world : World
  deriving DecidableEq

/-- The `if w.StripColors { msg = Strip(msg) }` step of `WriteMsg`: the
message as actually appended and counted. -/
def effMsg (w : fileLogWriter) (msg : String) : String :=
  if w.StripColors then Strip msg else msg

/-- The rotation phase of `WriteMsg`: strip, derive day/hour, and perform
the (double-checked) rotation when due.  Under the single-threaded
embedding both evaluations of `needRotate` see the same state, so the
check collapses to one. -/
def rotationPhase (wd : World) (when : GoTime) (msg : String)
    (renameArchiveOk renameActiveOk : Bool) : World :=
  let dh := formatTimeHeader when
  let msg' := effMsg wd.w msg
  if wd.w.Rotate && needRotate wd.w (strBytes msg') dh.1 dh.2 then
    (doRotate wd when renameArchiveOk renameActiveOk).2
  else wd

/-- `WriteMsg(when, msg)`: strip colors, rotate if due (failures of the
rotation are only logged), append the message, and on success bump the
line and byte counters; a write failure leaves the counters untouched and
is returned unmodified. -/
def WriteMsg (wd : World) (when : GoTime) (msg : String)
    (writeOk renameArchiveOk renameActiveOk : Bool) : WriteRes :=
  let dh := formatTimeHeader when
  let msg := effMsg wd.w msg
  let step : Bool × Option GoError × World :=
    if wd.w.Rotate && needRotate wd.w (strBytes msg) dh.1 dh.2 then
      let r := doRotate wd when renameArchiveOk renameActiveOk
      (true, r.1, r.2)
    else (false, none, wd)
  let wd' := step.2.2
  match fdWrite wd'.fs wd'.w.fileWriter writeOk msg when with
  | (none, fs') =>
      { err := none, rotated := step.1, rotateErr := step.2.1,
        world := ⟨fs', { wd'.w with
          maxLinesCurLines := wd'.w.maxLinesCurLines + 1,
          maxSizeCurSize := wd'.w.maxSizeCurSize + strBytes msg }⟩ }
  | (some e, fs') =>
      { err := some e, rotated := step.1, rotateErr := step.2.1, world := ⟨fs', wd'.w⟩ }

/-- `strings.HasPrefix` on the model's flat names. -/
def hasPrefixGo (s pre : String) : Bool :=
  pre.toList.isPrefixOf s.toList

/-- `strings.HasSuffix` on the model's flat names. -/
def hasSuffixGo (s suf : String) : Bool :=
  suf.toList.isSuffixOf s.toList

/-- `deleteOldLog`'s per-entry deletion test: a non-directory whose
modification time plus `24h * MaxDays` is strictly before `now`, whose
base name starts with the base of `fileNameOnly` and ends with `suffix`
(names are flat here, so `filepath.Base` is the identity). -/
def shouldDelete (w : fileLogWriter) (now : GoTime) (e : String × FileData) : Bool :=
  !e.2.isDir && decide (e.2.modTime + 24 * 3600 * w.MaxDays < now) &&
    hasPrefixGo e.1 w.fileNameOnly && hasSuffixGo e.1 w.suffix

/-- `deleteOldLog()`: walk the destination directory and remove every
entry passing `shouldDelete`; per-entry errors are swallowed and the walk
continues. -/
def deleteOldLog (w : fileLogWriter) (now : GoTime) (fs : FS) : FS :=
  fs.filter fun e => !shouldDelete w now e

/-- A sequence of `WriteMsg` calls (all at wall time `when`, every
syscall succeeding), collecting per-call rotation flags. -/
def writeAll (wd : World) (when : GoTime) : List String → List Bool × World
  | [] => ([], wd)
  | m :: rest =>
      let r := WriteMsg wd when m true true true
      let (flags, wd') := writeAll r.world when rest
      (r.rotated :: flags, wd')

/-! ## Configuration decoding and the instance registry

`newFileWriter` keys a process-wide map by the raw `jsonConfig` string and
fills a defaulted `fileLogWriter` via `Init`, which calls the standard
library's `json.Unmarshal`.  `json.Unmarshal` is outside this repository;
it is modelled here for the flat objects this writer's configurations
consist of: whitespace between tokens is insignificant, keys match the
struct's json tags case-insensitively, unknown keys are ignored, and a
type mismatch on a known key is an error.  String escapes and nested
values are not modelled (no claim needs them). -/

/-- A flat JSON value. -/
inductive JVal where
  | jstr (s : String)
  | jnum (n : Int)
  | jbool (b : Bool)
  deriving DecidableEq

/-- A JSON token. -/
inductive JTok where
  | lbrace
  | rbrace
  | colon
  | comma
  | lit (v : JVal)
  | key (s : String)
  deriving DecidableEq

/-- JSON insignificant whitespace. -/
def isJsonWs (c : Char) : Bool :=
  c = ' ' || c = '\t' || c = '\n' || c = '\r'

/-- Lex a string literal body up to its closing quote (escapes unmodelled). -/
def lexStr : List Char → Option (String × List Char)
  | [] => none
  | '"' :: rest => some ("", rest)
  | c :: rest =>
      if c = '\\' then none
      else (lexStr rest).map fun p => (⟨c :: p.1.toList⟩, p.2)

/-- Decimal value of a digit run. -/
def digitsVal (l : List Char) : Int :=
  l.foldl (fun acc c => acc * 10 + (Int.ofNat c.toNat - Int.ofNat '0'.toNat)) 0

/-- Tokenize a flat JSON text; the fuel is at least the input length. -/
def jsonLex : Nat → List Char → Option (List JTok)
  | 0, _ => none
  | _, [] => some []
  | fuel + 1, c :: rest =>
      if isJsonWs c then jsonLex fuel rest
      else if c = '{' then (jsonLex fuel rest).map (.lbrace :: ·)
      else if c = '}' then (jsonLex fuel rest).map (.rbrace :: ·)
      else if c = ':' then (jsonLex fuel rest).map (.colon :: ·)
      else if c = ',' then (jsonLex fuel rest).map (.comma :: ·)
      else if c = '"' then
        match lexStr rest with
        | none => none
        | some (s, r) => (jsonLex fuel r).map (.lit (.jstr s) :: ·)
      else if c = '-' then
        let ds := rest.takeWhile Char.isDigit
        if ds = [] then none
        else (jsonLex fuel (rest.drop ds.length)).map (.lit (.jnum (-(digitsVal ds))) :: ·)
      else if c.isDigit then
        let ds := (c :: rest).takeWhile Char.isDigit
        if ds = [] then none
        else (jsonLex fuel ((c :: rest).drop ds.length)).map (.lit (.jnum (digitsVal ds)) :: ·)
      else if (c :: rest).take 4 = "true".toList then
        (jsonLex fuel ((c :: rest).drop 4)).map (.lit (.jbool true) :: ·)
      else if (c :: rest).take 5 = "false".toList then
        (jsonLex fuel ((c :: rest).drop 5)).map (.lit (.jbool false) :: ·)
      else none

/-- Parse the `"key": value [, ...] }` tail of a flat object. -/
def parsePairs : Nat → List JTok → Option (List (String × JVal))
  | 0, _ => none
  | _, .rbrace :: [] => some []
  | fuel + 1, .lit (.jstr k) :: .colon :: .lit v :: rest =>
      match rest with
      | .comma :: rest' => (parsePairs fuel rest').map ((k, v) :: ·)
      | .rbrace :: [] => some [(k, v)]
      | _ => none
  | _, _ => none

/-- Parse a whole flat JSON object into its key/value pairs. -/
def jsonDecodeObj (s : String) : Option (List (String × JVal)) :=
  match jsonLex (s.toList.length + 1) s.toList with
  | none => none
  | some (.lbrace :: toks) => parsePairs (toks.length + 1) toks
  | some _ => none

/-- ASCII lowering, for `json.Unmarshal`'s case-insensitive key match. -/
def asciiLower (s : String) : String :=
  ⟨s.toList.map fun c =>
    if 'A' ≤ c ∧ c ≤ 'Z' then Char.ofNat (c.toNat + 32) else c⟩

/-- Apply one decoded key/value pair to the writer, per the struct's json
tags; unknown keys are ignored, a type mismatch on a known key errors. -/
def applyField (w : fileLogWriter) (k : String) (v : JVal) : Option fileLogWriter :=
  let key := asciiLower k
  if key = "filename" then match v with | .jstr s => some { w with Filename := s } | _ => none
  else if key = "maxlines" then match v with | .jnum n => some { w with MaxLines := n } | _ => none
  else if key = "maxsize" then match v with | .jnum n => some { w with MaxSize := n } | _ => none
  else if key = "stripcolors" then match v with | .jbool b => some { w with StripColors := b } | _ => none
  else if key = "hourly" then match v with | .jbool b => some { w with Hourly := b } | _ => none
  else if key = "hourly_open" then match v with | .jnum n => some { w with HourlyOpenDate := n } | _ => none
  else if key = "daily" then match v with | .jbool b => some { w with Daily := b } | _ => none
  else if key = "maxdays" then match v with | .jnum n => some { w with MaxDays := n } | _ => none
  else if key = "daily_open" then match v with | .jnum n => some { w with DailyOpenDate := n } | _ => none
  else if key = "rotate" then match v with | .jbool b => some { w with Rotate := b } | _ => none
  else if key = "level" then match v with | .jnum n => some { w with Level := n } | _ => none
  else if key = "perm" then match v with | .jstr s => some { w with Perm := s } | _ => none
  else if key = "rotateperm" then match v with | .jstr s => some { w with RotatePerm := s } | _ => none
  else some w

/-- Modelled from the spec: Go's `encoding/json.Unmarshal` applied to a
`fileLogWriter` (the standard library is outside this repository's
sources) — decode the flat object and fold its fields over `w`. -/
def unmarshalConfig (jsonConfig : String) (w : fileLogWriter) : Option fileLogWriter :=
  match jsonDecodeObj jsonConfig with
  | none => none
  | some pairs =>
      pairs.foldl (fun acc p => acc.bind fun w' => applyField w' p.1 p.2) (some w)

/-- `filepath.Ext` on the flat names of this model: the part of the name
from its final dot, or `""` when it has none. -/
def goExt (s : String) : String :=
  let l := s.toList
  if '.' ∈ l then ⟨'.' :: (l.reverse.takeWhile (· ≠ '.')).reverse⟩ else ""

/-- `Init(jsonConfig)`: decode the configuration over the defaults,
require a filename, derive `suffix`/`fileNameOnly` (the extension
defaults to `.log`), and start the logger. -/
def Init (w : fileLogWriter) (jsonConfig : String) (fs : FS) (now : GoTime) :
    Option GoError × fileLogWriter × FS :=
  match unmarshalConfig jsonConfig w with
  | none => (some .jsonError, w, fs)
  | some w1 =>
      if w1.Filename = "" then (some .noFilename, w1, fs)
      else
        let sfx := goExt w1.Filename
        let nameOnly := if sfx = "" then w1.Filename else w1.Filename.dropRight sfx.length
        let w2 := { w1 with
          suffix := if sfx = "" then ".log" else sfx
          fileNameOnly := nameOnly }
        startLogger w2 fs now

/-- Registry lookup (the Go `instance` map, keyed by the raw string). -/
def regLookup : List (String × fileLogWriter) → String → Option fileLogWriter
  | [], _ => none
  | (k, v) :: rest, s => if k = s then some v else regLookup rest s

/-- `newFileWriter(jsonConfig)`: consult the process-wide `instance` map
under the raw `jsonConfig` string; on a hit return the cached writer
unchanged, otherwise build a defaulted writer, `Init` it, and cache it
(a failed `Init` returns `nil` and caches nothing). -/
def newFileWriter (inst : List (String × fileLogWriter)) (jsonConfig : String)
    (fs : FS) (now : GoTime) :
    Option fileLogWriter × List (String × fileLogWriter) × FS :=
  match regLookup inst jsonConfig with
  | some v => (some v, inst, fs)
  | none =>
      match Init defaultWriter jsonConfig fs now with
      | (some _, _, fs') => (none, inst, fs')
      | (none, w', fs') => (some w', (jsonConfig, w') :: inst, fs')

/-! ## Support lemmas -/

@[simp] theorem fsLookup_fsSet_self (fs : FS) (k : String) (v : FileData) :
    fsLookup (fsSet fs k v) k = some v := by
  induction fs with
  | nil => simp [fsSet, fsLookup]
  | cons e rest ih =>
      obtain ⟨n, d⟩ := e
      by_cases h : n = k <;> simp [fsSet, fsLookup, h, ih]

theorem fsLookup_fsSet_ne (fs : FS) (k k' : String) (v : FileData) (h : k ≠ k') :
    fsLookup (fsSet fs k v) k' = fsLookup fs k' := by
  induction fs with
  | nil => simp [fsSet, fsLookup, h]
  | cons e rest ih =>
      obtain ⟨n, d⟩ := e
      by_cases hn : n = k
      · subst hn; simp [fsSet, fsLookup, h]
      · by_cases hk : n = k'
        · subst hk; simp [fsSet, fsLookup, hn]
        · simp [fsSet, fsLookup, hn, hk, ih]

theorem strBytes_nonneg (s : String) : 0 ≤ strBytes s := Int.ofNat_nonneg _

theorem utf8ByteSizeGo_pos (c : Char) (cs : List Char) :
    0 < String.utf8ByteSize.go (c :: cs) := by
  show 0 < String.utf8ByteSize.go cs + c.utf8Size
  have := c.utf8Size_pos
  omega

theorem strBytes_pos (s : String) (h : s ≠ "") : 0 < strBytes s := by
  obtain ⟨l⟩ := s
  cases l with
  | nil => exact absurd rfl h
  | cons c cs =>
      have h2 : 0 < String.utf8ByteSize ⟨c :: cs⟩ := utf8ByteSizeGo_pos c cs
      show (0 : Int) < Int.ofNat (String.utf8ByteSize ⟨c :: cs⟩)
      rw [Int.ofNat_eq_natCast]
      exact_mod_cast h2

theorem linesCountGo_count (fuel : Nat) (l : List Char) (h : l.length < fuel) :
    linesCountGo fuel l = l.count '\n' := by
  induction fuel generalizing l with
  | zero => omega
  | succ fuel ih =>
      show (if l = [] then 0
            else (l.take 32768).count '\n' + linesCountGo fuel (l.drop 32768)) = _
      by_cases hne : l = []
      · simp [hne]
      · have hpos : 0 < l.length := List.length_pos.mpr hne
        have hdrop : (l.drop 32768).length < fuel := by
          simp only [List.length_drop]
          omega
        rw [if_neg hne, ih _ hdrop]
        conv_rhs => rw [← List.take_append_drop 32768 l]
        rw [List.count_append]

theorem linesCount_count (l : List Char) : linesCount l = l.count '\n' :=
  linesCountGo_count _ l (by omega)

/-- `needRotate` is `false` when no clause fires. -/
theorem needRotate_false {w : fileLogWriter} {s d h : Int}
    (h1 : w.MaxLines ≤ 0 ∨ w.maxLinesCurLines < w.MaxLines)
    (h2 : w.MaxSize ≤ 0 ∨ w.maxSizeCurSize < w.MaxSize)
    (h3 : w.Daily = true → d = w.DailyOpenDate)
    (h4 : w.Hourly = true → h = w.HourlyOpenDate) :
    needRotate w s d h = false := by
  unfold needRotate
  simp only [Bool.or_eq_false_iff, Bool.and_eq_false_iff, decide_eq_false_iff_not, not_lt, not_le]
  refine ⟨⟨⟨?_, ?_⟩, ?_⟩, ?_⟩
  · omega
  · omega
  · by_cases hd : w.Daily = true
    · right; simpa using h3 hd
    · left; simpa using hd
  · by_cases hh : w.Hourly = true
    · right; simpa using h4 hh
    · left; simpa using hh

/-- `needRotate` is `true` once the line budget is consumed. -/
theorem needRotate_true_of_lines {w : fileLogWriter} {s d h : Int}
    (hml : 0 < w.MaxLines) (hc : w.MaxLines ≤ w.maxLinesCurLines) :
    needRotate w s d h = true := by
  unfold needRotate
  simp [hml, hc]

/-- The rotation flag of a `WriteMsg` result is exactly the (collapsed)
double-checked condition. -/
theorem WriteMsg_rotated (wd : World) (when : GoTime) (msg : String)
    (writeOk rA rB : Bool) :
    (WriteMsg wd when msg writeOk rA rB).rotated =
      (wd.w.Rotate && needRotate wd.w (strBytes (effMsg wd.w msg)) (dayOf when) (hourOf when)) := by
  unfold WriteMsg
  by_cases hc : (wd.w.Rotate && needRotate wd.w (strBytes (effMsg wd.w msg)) (dayOf when) (hourOf when)) = true
  · simp only [formatTimeHeader] at hc ⊢
    rw [if_pos hc]
    rcases hfw : fdWrite (doRotate wd when rA rB).2.fs (doRotate wd when rA rB).2.w.fileWriter
        writeOk (effMsg wd.w msg) when with ⟨e, fs'⟩
    cases e <;> simp [hfw, hc]
  · have hc' : (wd.w.Rotate && needRotate wd.w (strBytes (effMsg wd.w msg)) (dayOf when) (hourOf when)) = false :=
      Bool.eq_false_iff.mpr hc
    simp only [formatTimeHeader] at hc' ⊢
    rw [if_neg (by simp [hc'])]
    rcases hfw : fdWrite wd.fs wd.w.fileWriter writeOk (effMsg wd.w msg) when with ⟨e, fs'⟩
    cases e <;> simp [hfw, hc']

/-- A quiet, successful `WriteMsg`: when the rotation condition is off and
every syscall succeeds, the message is appended and the counters bumped. -/
theorem WriteMsg_step_quiet (wd : World) (when : GoTime) (msg : String) (rA rB : Bool)
    (d : FileData)
    (hnr : (wd.w.Rotate && needRotate wd.w (strBytes (effMsg wd.w msg)) (dayOf when) (hourOf when)) = false)
    (hfd : wd.w.fileWriter = some wd.w.Filename)
    (hlk : fsLookup wd.fs wd.w.Filename = some d) :
    WriteMsg wd when msg true rA rB =
      { err := none, rotated := false, rotateErr := none,
        world := ⟨fsSet wd.fs wd.w.Filename
          { d with content := d.content ++ effMsg wd.w msg, modTime := when },
          { wd.w with maxLinesCurLines := wd.w.maxLinesCurLines + 1,
                      maxSizeCurSize := wd.w.maxSizeCurSize + strBytes (effMsg wd.w msg) }⟩ } := by
  unfold WriteMsg
  simp only [formatTimeHeader] at hnr ⊢
  rw [if_neg (by simp [hnr])]
  unfold fdWrite
  rw [hfd]
  simp only [hlk, if_pos rfl]
  rfl

/-- `initFd` succeeds and keeps the handle whenever the handle is the
active path and the path is present. -/
theorem initFd_success (w : fileLogWriter) (fs : FS) (d : FileData)
    (hfd : w.fileWriter = some w.Filename)
    (hlk : fsLookup fs w.Filename = some d) :
    (initFd w fs).1 = none ∧ (initFd w fs).2.fileWriter = some w.Filename := by
  unfold initFd
  rw [hfd]
  simp only [hlk]
  split_ifs <;> simp_all [lines, hlk, hfd]

/-- `startLogger` succeeds and installs a handle on the active path
whenever the permission string parses and the path is not a directory. -/
theorem startLogger_success (w : fileLogWriter) (fs : FS) (now : GoTime) (p : Int)
    (hperm : parseOctal w.Perm = some p)
    (hdir : ∀ d, fsLookup fs w.Filename = some d → d.isDir = false) :
    (startLogger w fs now).1 = none ∧
    (startLogger w fs now).2.1.fileWriter = some w.Filename := by
  unfold startLogger createLogFile
  rw [hperm]
  rcases hlk : fsLookup fs w.Filename with _ | d
  · simp only [hlk]
    have h := initFd_success { w with fileWriter := some w.Filename }
      (fsSet fs w.Filename ⟨"", now, p, false⟩) ⟨"", now, p, false⟩ rfl
      (by simpa using fsLookup_fsSet_self fs w.Filename _)
    exact h
  · have hd := hdir d hlk
    simp only [hlk, hd, Bool.false_eq_true, if_false]
    have h := initFd_success { w with fileWriter := some w.Filename }
      (fsSet fs w.Filename { d with perm := p }) { d with perm := p } rfl
      (by simpa using fsLookup_fsSet_self fs w.Filename _)
    rw [hd] at h
    exact h

/-- Total post-strip byte size of a batch of messages. -/
def sumBytes (w : fileLogWriter) (msgs : List String) : Int :=
  (msgs.map fun m => strBytes (effMsg w m)).sum

theorem sumBytes_nonneg (w : fileLogWriter) (msgs : List String) : 0 ≤ sumBytes w msgs := by
  refine List.sum_nonneg ?_
  intro x hx
  obtain ⟨m, _, rfl⟩ := List.mem_map.mp hx
  exact strBytes_nonneg _

/-- A quiet batch: while the line budget is not yet consumed, the size
budget not reachable, and the calendar markers match, every write
succeeds without any rotation, the handle survives, and the counters add
up exactly. -/
theorem writeAll_quiet (msgs : List String) :
    ∀ (wd : World) (d : FileData),
    ∀ when : GoTime,
    wd.w.fileWriter = some wd.w.Filename →
    fsLookup wd.fs wd.w.Filename = some d →
    (wd.w.MaxLines ≤ 0 ∨ wd.w.maxLinesCurLines + msgs.length ≤ wd.w.MaxLines) →
    (wd.w.MaxSize ≤ 0 ∨ wd.w.maxSizeCurSize + sumBytes wd.w msgs < wd.w.MaxSize) →
    (wd.w.Daily = true → dayOf when = wd.w.DailyOpenDate) →
    (wd.w.Hourly = true → hourOf when = wd.w.HourlyOpenDate) →
    (writeAll wd when msgs).1 = List.replicate msgs.length false ∧
    (writeAll wd when msgs).2.w =
      { wd.w with maxLinesCurLines := wd.w.maxLinesCurLines + msgs.length,
                  maxSizeCurSize := wd.w.maxSizeCurSize + sumBytes wd.w msgs } ∧
    (writeAll wd when msgs).2.w.fileWriter = some wd.w.Filename ∧
    ∃ d', fsLookup (writeAll wd when msgs).2.fs wd.w.Filename = some d' := by
  induction msgs with
  | nil =>
      intro wd d when hfd hlk _ _ _ _
      refine ⟨rfl, ?_, hfd, ⟨d, hlk⟩⟩
      simp [writeAll, sumBytes]
  | cons m rest ih =>
      intro wd d when hfd hlk hl hs hdy hhr
      have hb : 0 ≤ strBytes (effMsg wd.w m) := strBytes_nonneg _
      have hrest : 0 ≤ sumBytes wd.w rest := sumBytes_nonneg _ _
      have hsum : sumBytes wd.w (m :: rest) = strBytes (effMsg wd.w m) + sumBytes wd.w rest := by
        simp [sumBytes]
      have hnr : (wd.w.Rotate &&
          needRotate wd.w (strBytes (effMsg wd.w m)) (dayOf when) (hourOf when)) = false := by
        cases hrot : wd.w.Rotate
        · simp
        · rw [Bool.true_and]
          refine needRotate_false ?_ ?_ hdy hhr
          · rcases hl with hl | hl
            · exact Or.inl hl
            · right
              have : (((m :: rest).length : Int)) = rest.length + 1 := by
                simp only [List.length_cons]; push_cast; ring
              omega
          · rcases hs with hs | hs
            · exact Or.inl hs
            · right; rw [hsum] at hs; omega
      have hstep := WriteMsg_step_quiet wd when m true true d hnr hfd hlk
      set d1 : FileData :=
        { d with content := d.content ++ effMsg wd.w m, modTime := when } with hd1
      set w1 : fileLogWriter :=
        { wd.w with maxLinesCurLines := wd.w.maxLinesCurLines + 1,
                    maxSizeCurSize := wd.w.maxSizeCurSize + strBytes (effMsg wd.w m) } with hw1
      have hWrA : writeAll wd when (m :: rest) =
          (let r := WriteMsg wd when m true true true
           let p := writeAll r.world when rest
           (r.rotated :: p.1, p.2)) := rfl
      rw [hWrA, hstep]
      have hEff : ∀ x, effMsg w1 x = effMsg wd.w x := fun _ => rfl
      have hSumEq : sumBytes w1 rest = sumBytes wd.w rest := rfl
      have ih' := ih ⟨fsSet wd.fs wd.w.Filename d1, w1⟩ d1 when hfd
        (by simpa using fsLookup_fsSet_self wd.fs wd.w.Filename d1)
        (by
          rcases hl with hl | hl
          · exact Or.inl hl
          · right
            show w1.maxLinesCurLines + (rest.length : Int) ≤ wd.w.MaxLines
            have : (((m :: rest).length : Int)) = rest.length + 1 := by
              simp only [List.length_cons]; push_cast; ring
            simp only [hw1]
            omega)
        (by
          rcases hs with hs | hs
          · exact Or.inl hs
          · right
            show w1.maxSizeCurSize + sumBytes w1 rest < wd.w.MaxSize
            rw [hSumEq]
            simp only [hw1]
            rw [hsum] at hs
            omega)
        hdy hhr
      obtain ⟨hflags, hwriter, hhandle, d2, hlk2⟩ := ih'
      refine ⟨?_, ?_, ?_, ⟨d2, ?_⟩⟩
      · simp only [List.length_cons, List.replicate_succ]
        simpa using hflags
      · rw [hwriter]
        have hS : sumBytes w1 rest = sumBytes wd.w rest := rfl
        rw [hS, hsum]
        simp only [hw1, List.length_cons]
        congr 1 <;> (try rfl) <;> push_cast <;> ring
      · exact hhandle
      · exact hlk2

/-! ## Concrete scenario data for witnesses and counterexamples -/

/-- 2024-01-05 10:00:00 UTC. -/
def tJan5 : GoTime := 1704448800

/-- 2024-01-06 10:00:00 UTC (the next calendar day). -/
def tJan6 : GoTime := tJan5 + 86400

/-- 2024-02-05 10:00:00 UTC (a different calendar day one month later,
sharing the day-of-month 5 with `tJan5`). -/
def tFeb5 : GoTime := 1707127200

/-- A writer on `a.log`, as `startLogger` leaves it for a file whose
modification time is `tJan5`, with the source's defaults otherwise. -/
def wBase : fileLogWriter :=
  { defaultWriter with
    Filename := "a.log"
    fileNameOnly := "a"
    suffix := ".log"
    fileWriter := some "a.log"
    dailyOpenTime := tJan5
    DailyOpenDate := dayOf tJan5
    HourlyOpenDate := hourOf tJan5 }

/-- A directory holding just the (empty) active file. -/
def fsBase : FS := [("a.log", ⟨"", tJan5, 432, false⟩)]

/-! ## Claims -/

/-- C9: `needRotate` is independent of its `size` argument — for every
writer state, day and hour, any two sizes give the same verdict; and
consequently, with the byte budget one short of `maxSize` and no other
clause due, a write succeeds without rotation and leaves
`currentByteSize = maxSize - 1 + len(msg)`, i.e. the counter can exceed
`maxSize` by up to one full message before a rotation occurs. -/
theorem claim_C9 :
    (∀ (w : fileLogWriter) (s1 s2 d h : Int), needRotate w s1 d h = needRotate w s2 d h) ∧
    (∀ (wd : World) (when : GoTime) (msg : String) (rA rB : Bool) (d : FileData),
      0 < wd.w.MaxSize →
      wd.w.maxSizeCurSize = wd.w.MaxSize - 1 →
      (wd.w.MaxLines ≤ 0 ∨ wd.w.maxLinesCurLines < wd.w.MaxLines) →
      (wd.w.Daily = true → dayOf when = wd.w.DailyOpenDate) →
      (wd.w.Hourly = true → hourOf when = wd.w.HourlyOpenDate) →
      wd.w.fileWriter = some wd.w.Filename →
      fsLookup wd.fs wd.w.Filename = some d →
      (WriteMsg wd when msg true rA rB).rotated = false ∧
      (WriteMsg wd when msg true rA rB).err = none ∧
      (WriteMsg wd when msg true rA rB).world.w.maxSizeCurSize =
        wd.w.MaxSize - 1 + strBytes (effMsg wd.w msg)) := by
  constructor
  · intro w s1 s2 d h
    rfl
  · intro wd when msg rA rB d hms hcur hml hdy hhr hfd hlk
    have hnr : (wd.w.Rotate &&
        needRotate wd.w (strBytes (effMsg wd.w msg)) (dayOf when) (hourOf when)) = false := by
      cases wd.w.Rotate
      · simp
      · rw [Bool.true_and]
        exact needRotate_false hml (Or.inr (by omega)) hdy hhr
    rw [WriteMsg_step_quiet wd when msg rA rB d hnr hfd hlk]
    refine ⟨rfl, rfl, ?_⟩
    show wd.w.maxSizeCurSize + strBytes (effMsg wd.w msg) = _
    rw [hcur]

/-- C9 witness: at `maxSize = 10` with 9 bytes counted, a 3-byte message
is written without rotation and the counter reaches 12. -/
theorem claim_C9_witness :
    (needRotate { wBase with MaxSize := 10, maxSizeCurSize := 3 } 0 5 10 =
      needRotate { wBase with MaxSize := 10, maxSizeCurSize := 3 } 999 5 10) ∧
    (WriteMsg ⟨fsBase, { wBase with MaxSize := 10, maxSizeCurSize := 9 }⟩ tJan5 "abc"
        true true true).rotated = false ∧
    (WriteMsg ⟨fsBase, { wBase with MaxSize := 10, maxSizeCurSize := 9 }⟩ tJan5 "abc"
        true true true).err = none ∧
    (WriteMsg ⟨fsBase, { wBase with MaxSize := 10, maxSizeCurSize := 9 }⟩ tJan5 "abc"
        true true true).world.w.maxSizeCurSize = 12 := by
  refine ⟨claim_C9.1 _ 0 999 5 10, ?_⟩
  have h := claim_C9.2 ⟨fsBase, { wBase with MaxSize := 10, maxSizeCurSize := 9 }⟩ tJan5 "abc"
    true true ⟨"", tJan5, 432, false⟩ (by decide) (by decide) (Or.inl (by decide))
    (by intro _; decide) (by intro _; decide) rfl rfl
  exact ⟨h.1, h.2.1, by rw [h.2.2]; decide⟩

/-- C3: with `maxLines = L > 0` and rotation enabled, starting from an
empty line budget, `L` writes that cross no size or calendar boundary
trigger no rotation, and write number `L + 1` triggers exactly one
rotation (its rotation flag is set; all earlier flags are clear). -/
theorem claim_C3 (wd : World) (when : GoTime) (msgs : List String) (extra : String)
    (L : Nat) (d : FileData)
    (hLen : msgs.length = L)
    (hL : 0 < L)
    (hrot : wd.w.Rotate = true)
    (hml : wd.w.MaxLines = (L : Int))
    (hcount : wd.w.maxLinesCurLines = 0)
    (hfd : wd.w.fileWriter = some wd.w.Filename)
    (hlk : fsLookup wd.fs wd.w.Filename = some d)
    (hsz : wd.w.MaxSize ≤ 0 ∨ wd.w.maxSizeCurSize + sumBytes wd.w msgs < wd.w.MaxSize)
    (hdy : wd.w.Daily = true → dayOf when = wd.w.DailyOpenDate)
    (hhr : wd.w.Hourly = true → hourOf when = wd.w.HourlyOpenDate) :
    (writeAll wd when msgs).1 = List.replicate L false ∧
    (WriteMsg (writeAll wd when msgs).2 when extra true true true).rotated = true := by
  have hq := writeAll_quiet msgs wd d when hfd hlk
    (Or.inr (by rw [hcount, hLen, hml]; simp)) hsz hdy hhr
  obtain ⟨hflags, hwriter, hhandle, _, _⟩ := hq
  constructor
  · rw [hflags, hLen]
  · rw [WriteMsg_rotated]
    have hR : (writeAll wd when msgs).2.w.Rotate = true := by
      rw [hwriter]; exact hrot
    rw [hR, Bool.true_and]
    apply needRotate_true_of_lines
    · show (writeAll wd when msgs).2.w.MaxLines > 0
      rw [hwriter]
      show wd.w.MaxLines > 0
      rw [hml]
      exact_mod_cast hL
    · show (writeAll wd when msgs).2.w.MaxLines ≤ (writeAll wd when msgs).2.w.maxLinesCurLines
      rw [hwriter]
      show wd.w.MaxLines ≤ wd.w.maxLinesCurLines + (msgs.length : Int)
      rw [hml, hcount, hLen]
      omega

/-- C3 witness: `maxLines = 2`, two one-line writes stay quiet, the third
write rotates. -/
theorem claim_C3_witness :
    (writeAll ⟨fsBase, { wBase with MaxLines := 2 }⟩ tJan5 ["x\n", "y\n"]).1 =
      List.replicate 2 false ∧
    (WriteMsg (writeAll ⟨fsBase, { wBase with MaxLines := 2 }⟩ tJan5 ["x\n", "y\n"]).2
      tJan5 "z\n" true true true).rotated = true := by
  exact claim_C3 ⟨fsBase, { wBase with MaxLines := 2 }⟩ tJan5 ["x\n", "y\n"] "z\n" 2
    ⟨"", tJan5, 432, false⟩ rfl (by decide) rfl rfl rfl rfl rfl
    (Or.inl (by decide)) (by intro _; decide) (by intro _; decide)

/-- C4 (counterexample): `daily` on, `hourly` off; the writer opened on
2024-01-05 receives its second write on 2024-02-05 — a different calendar
day — yet no rotation is triggered, because `needRotate` compares only
the day-of-month (5 = 5).  This falsifies the claim that every pair of
writes on different calendar days rotates on the second write. -/
theorem claim_C4_counterexample :
    yearOf tJan5 = 2024 ∧ monthOf tJan5 = 1 ∧ dayOf tJan5 = 5 ∧
    yearOf tFeb5 = 2024 ∧ monthOf tFeb5 = 2 ∧ dayOf tFeb5 = 5 ∧
    (WriteMsg ⟨fsBase, { wBase with Hourly := false }⟩ tJan5 "one" true true true).rotated
      = false ∧
    (WriteMsg (WriteMsg ⟨fsBase, { wBase with Hourly := false }⟩ tJan5 "one"
        true true true).world tFeb5 "two" true true true).rotated = false := by
  refine ⟨by decide, by decide, by decide, by decide, by decide, by decide, by decide, ?_⟩
  decide

/-- C4 (amended): with `daily` on and `hourly` off (and no line/size
limit), for a writer whose open marker is the day-of-month of the first
write, the first write triggers no rotation and the second write triggers
a rotation exactly when the two timestamps' day-of-month values differ —
so distinct calendar days in different months that share a day-of-month
do not rotate, while any day-of-month change does. -/
theorem claim_C4_amended (wd : World) (t1 t2 : GoTime) (m1 m2 : String) (d : FileData)
    (hrot : wd.w.Rotate = true)
    (hdaily : wd.w.Daily = true)
    (hhourly : wd.w.Hourly = false)
    (hml : wd.w.MaxLines ≤ 0)
    (hms : wd.w.MaxSize ≤ 0)
    (hopen : wd.w.DailyOpenDate = dayOf t1)
    (hfd : wd.w.fileWriter = some wd.w.Filename)
    (hlk : fsLookup wd.fs wd.w.Filename = some d) :
    (WriteMsg wd t1 m1 true true true).rotated = false ∧
    (WriteMsg (WriteMsg wd t1 m1 true true true).world t2 m2 true true true).rotated =
      decide (dayOf t2 ≠ dayOf t1) := by
  have hnr1 : (wd.w.Rotate &&
      needRotate wd.w (strBytes (effMsg wd.w m1)) (dayOf t1) (hourOf t1)) = false := by
    rw [hrot, Bool.true_and]
    refine needRotate_false (Or.inl hml) (Or.inl hms) (fun _ => hopen.symm) ?_
    intro hh
    rw [hhourly] at hh
    cases hh
  have hstep := WriteMsg_step_quiet wd t1 m1 true true d hnr1 hfd hlk
  constructor
  · rw [hstep]
  · rw [hstep, WriteMsg_rotated]
    show (wd.w.Rotate && needRotate
      { wd.w with maxLinesCurLines := wd.w.maxLinesCurLines + 1,
                  maxSizeCurSize := wd.w.maxSizeCurSize + strBytes (effMsg wd.w m1) }
      _ (dayOf t2) (hourOf t2)) = _
    rw [hrot, Bool.true_and]
    unfold needRotate
    have h1 : ¬ (0 : Int) < wd.w.MaxLines := by omega
    have h2 : ¬ (0 : Int) < wd.w.MaxSize := by omega
    simp [h1, h2, hdaily, hhourly, hopen]

/-- C4 witness: consecutive calendar days (2024-01-05 then 2024-01-06)
have different day-of-month, so the second write rotates. -/
theorem claim_C4_amended_witness :
    (WriteMsg ⟨fsBase, { wBase with Hourly := false }⟩ tJan5 "one" true true true).rotated
      = false ∧
    (WriteMsg (WriteMsg ⟨fsBase, { wBase with Hourly := false }⟩ tJan5 "one"
        true true true).world tJan6 "two" true true true).rotated =
      decide (dayOf tJan6 ≠ dayOf tJan5) := by
  exact claim_C4_amended ⟨fsBase, { wBase with Hourly := false }⟩ tJan5 tJan6 "one" "two"
    ⟨"", tJan5, 432, false⟩ rfl rfl rfl (by decide) (by decide) (by decide) rfl rfl

/-- C5: in every `WriteMsg` call, the append step's outcome is returned
unmodified; a successful append bumps `currentLineCount` by exactly one
and `currentByteSize` by exactly the post-strip byte length, both
relative to the state the rotation phase left; a failed append leaves the
writer (and both counters) exactly as the rotation phase left them. -/
theorem claim_C5 (wd : World) (when : GoTime) (msg : String) (writeOk rA rB : Bool) :
    (WriteMsg wd when msg writeOk rA rB).err =
      (fdWrite (rotationPhase wd when msg rA rB).fs
        (rotationPhase wd when msg rA rB).w.fileWriter writeOk (effMsg wd.w msg) when).1 ∧
    ((WriteMsg wd when msg writeOk rA rB).err = none →
      (WriteMsg wd when msg writeOk rA rB).world.w.maxLinesCurLines =
        (rotationPhase wd when msg rA rB).w.maxLinesCurLines + 1 ∧
      (WriteMsg wd when msg writeOk rA rB).world.w.maxSizeCurSize =
        (rotationPhase wd when msg rA rB).w.maxSizeCurSize + strBytes (effMsg wd.w msg)) ∧
    ((WriteMsg wd when msg writeOk rA rB).err ≠ none →
      (WriteMsg wd when msg writeOk rA rB).world.w = (rotationPhase wd when msg rA rB).w) := by
  by_cases hc : (wd.w.Rotate &&
      needRotate wd.w (strBytes (effMsg wd.w msg)) (dayOf when) (hourOf when)) = true
  · unfold WriteMsg rotationPhase
    simp only [formatTimeHeader] at hc ⊢
    rw [if_pos hc, if_pos hc]
    rcases hfw : fdWrite (doRotate wd when rA rB).2.fs (doRotate wd when rA rB).2.w.fileWriter
        writeOk (effMsg wd.w msg) when with ⟨e, fs'⟩
    cases e <;> simp [hfw]
  · have hc' : (wd.w.Rotate &&
        needRotate wd.w (strBytes (effMsg wd.w msg)) (dayOf when) (hourOf when)) = false :=
      Bool.eq_false_iff.mpr hc
    unfold WriteMsg rotationPhase
    simp only [formatTimeHeader] at hc' ⊢
    rw [if_neg (by simp [hc']), if_neg (by simp [hc'])]
    rcases hfw : fdWrite wd.fs wd.w.fileWriter writeOk (effMsg wd.w msg) when with ⟨e, fs'⟩
    cases e <;> simp [hfw]

/-- C5 witness: a successful write bumps the counters from the
rotation-phase state; an injected write failure leaves the writer exactly
as the rotation phase left it, and the I/O error is returned. -/
theorem claim_C5_witness :
    (WriteMsg ⟨fsBase, wBase⟩ tJan5 "hi\n" true true true).world.w.maxLinesCurLines =
      (rotationPhase ⟨fsBase, wBase⟩ tJan5 "hi\n" true true).w.maxLinesCurLines + 1 ∧
    (WriteMsg ⟨fsBase, wBase⟩ tJan5 "hi\n" false true true).world.w =
      (rotationPhase ⟨fsBase, wBase⟩ tJan5 "hi\n" true true).w ∧
    (WriteMsg ⟨fsBase, wBase⟩ tJan5 "hi\n" false true true).err = some .writeFailed := by
  refine ⟨((claim_C5 ⟨fsBase, wBase⟩ tJan5 "hi\n" true true true).2.1 (by decide)).1, ?_, ?_⟩
  · exact (claim_C5 ⟨fsBase, wBase⟩ tJan5 "hi\n" false true true).2.2 (by decide)
  · decide

/-- C1: whenever the name search has chosen an archival name (the loop
finished non-exhausted) and the rename of the active path fails, `doRotate`
still finishes through `restartLogger` — i.e. `startLogger` is rerun on
the original active path — so the handle is open on the active path when
`doRotate` returns, and the returned error wraps the rename failure. -/
theorem claim_C1 (wd : World) (logTime : GoTime) (rA : Bool) (rp pp : Int)
    (fs' : FS) (fName : String) (num : Nat) (errNil : Bool) (d0 : FileData)
    (hrp : parseOctal wd.w.RotatePerm = some rp)
    (hpp : parseOctal wd.w.Perm = some pp)
    (hact : fsLookup wd.fs wd.w.Filename = some d0)
    (hloop : doRotateLoop wd.w (goFormat wd.w.Hourly wd.w.dailyOpenTime) rA 1000 wd.fs 1 "" true
      = (fs', .fin fName num errNil))
    (hnotex : ¬(errNil = true ∧ num > 999))
    (hdir : ∀ d, fsLookup fs' wd.w.Filename = some d → d.isDir = false) :
    (doRotate wd logTime rA false).1 =
      some (.restartWrap (.renameFailed wd.w.Filename fName)) ∧
    (doRotate wd logTime rA false).2 =
      (restartLogger (some (.renameFailed wd.w.Filename fName))
        ⟨fs', { wd.w with fileWriter := none }⟩ logTime).2 ∧
    (doRotate wd logTime rA false).2.w.fileWriter = some wd.w.Filename := by
  have hsl := startLogger_success { wd.w with fileWriter := none } fs' logTime pp hpp hdir
  have hred : doRotate wd logTime rA false =
      restartLogger (some (.renameFailed wd.w.Filename fName))
        ⟨fs', { wd.w with fileWriter := none }⟩ logTime := by
    unfold doRotate
    simp only [hrp, hact, hloop]
    rw [if_neg hnotex]
    rcases hlk2 : fsLookup fs' wd.w.Filename with _ | d1 <;> simp [hlk2]
  refine ⟨?_, by rw [hred], ?_⟩
  · rw [hred]
    unfold restartLogger
    rcases hst : startLogger { wd.w with fileWriter := none } fs' logTime with ⟨slErr, w2, fs2⟩
    have h1 : slErr = none := by rw [hst] at hsl; exact hsl.1
    subst h1
    rfl
  · rw [hred]
    unfold restartLogger
    rcases hst : startLogger { wd.w with fileWriter := none } fs' logTime with ⟨slErr, w2, fs2⟩
    have h1 : slErr = none := by rw [hst] at hsl; exact hsl.1
    have h2 : w2.fileWriter = some wd.w.Filename := by rw [hst] at hsl; exact hsl.2
    subst h1
    exact h2

/-- C1 witness: an otherwise-empty directory; the loop chooses the
unsuffixed archival name, the active rename is made to fail, and the
writer comes back with a fresh handle on `a.log` and the wrapped rename
error. -/
theorem claim_C1_witness :
    (doRotate ⟨[("a.log", ⟨"x", tJan5, 432, false⟩)], wBase⟩ tJan5 true false).1 =
      some (.restartWrap (.renameFailed "a.log" "a.2024-01-05-10.log")) ∧
    (doRotate ⟨[("a.log", ⟨"x", tJan5, 432, false⟩)], wBase⟩ tJan5 true false).2 =
      (restartLogger (some (.renameFailed "a.log" "a.2024-01-05-10.log"))
        ⟨[("a.log", ⟨"x", tJan5, 432, false⟩)], { wBase with fileWriter := none }⟩ tJan5).2 ∧
    (doRotate ⟨[("a.log", ⟨"x", tJan5, 432, false⟩)], wBase⟩ tJan5 true false).2.w.fileWriter =
      some "a.log" := by
  exact claim_C1 ⟨[("a.log", ⟨"x", tJan5, 432, false⟩)], wBase⟩ tJan5 true 288 432
    [("a.log", ⟨"x", tJan5, 432, false⟩)] "a.2024-01-05-10.log" 1 false
    ⟨"x", tJan5, 432, false⟩ (by decide) (by decide) rfl (by decide) (by decide)
    (by
      intro d hd
      have h : some (⟨"x", tJan5, 432, false⟩ : FileData) = some d := hd
      cases h
      rfl)

/-- C2 (counterexample): a size/line limit is configured and the
unsuffixed archival name already exists (content `"A"`); rotating the
active file (content `"B"`) renames the existing unsuffixed file to the
`.001.` form, but the active file is then renamed to the `.002.` slot —
not into the `NNN = 1` slot the claim asserts. -/
theorem claim_C2_counterexample :
    (fsLookup (doRotate ⟨[("a.log", ⟨"B", tJan5, 432, false⟩),
        ("a.2024-01-05-10.log", ⟨"A", tJan5, 288, false⟩)],
        { wBase with MaxLines := 1 }⟩ tJan5 true true).2.fs
      "a.2024-01-05-10.001.log").map FileData.content = some "A" ∧
    (fsLookup (doRotate ⟨[("a.log", ⟨"B", tJan5, 432, false⟩),
        ("a.2024-01-05-10.log", ⟨"A", tJan5, 288, false⟩)],
        { wBase with MaxLines := 1 }⟩ tJan5 true true).2.fs
      "a.2024-01-05-10.002.log").map FileData.content = some "B" ∧
    ¬ (fsLookup (doRotate ⟨[("a.log", ⟨"B", tJan5, 432, false⟩),
        ("a.2024-01-05-10.log", ⟨"A", tJan5, 288, false⟩)],
        { wBase with MaxLines := 1 }⟩ tJan5 true true).2.fs
      "a.2024-01-05-10.001.log").map FileData.content = some "B" := by
  refine ⟨by decide, by decide, by decide⟩

/-- C2 (amended): with a line limit configured and a fixed timestamp, the
first rotation out of a clean directory archives the active file (content
`"A"`) under the unsuffixed name; a second rotation within the same
period renames that existing unsuffixed file to the `.001.` form and then
renames the active file to the next free slot, `.002.` — not to `.001.` —
while a fresh active file is reopened. -/
theorem claim_C2_amended :
    (fsLookup (doRotate ⟨[("a.log", ⟨"A", tJan5, 432, false⟩)],
        { wBase with MaxLines := 1 }⟩ tJan5 true true).2.fs
      "a.2024-01-05-10.log").map FileData.content = some "A" ∧
    (doRotate ⟨[("a.log", ⟨"A", tJan5, 432, false⟩)],
        { wBase with MaxLines := 1 }⟩ tJan5 true true).1 = none ∧
    (fsLookup (doRotate (doRotate ⟨[("a.log", ⟨"A", tJan5, 432, false⟩)],
        { wBase with MaxLines := 1 }⟩ tJan5 true true).2 tJan5 true true).2.fs
      "a.2024-01-05-10.001.log").map FileData.content = some "A" ∧
    (fsLookup (doRotate (doRotate ⟨[("a.log", ⟨"A", tJan5, 432, false⟩)],
        { wBase with MaxLines := 1 }⟩ tJan5 true true).2 tJan5 true true).2.fs
      "a.2024-01-05-10.002.log").map FileData.content = some "" ∧
    ((fsLookup (doRotate (doRotate ⟨[("a.log", ⟨"A", tJan5, 432, false⟩)],
        { wBase with MaxLines := 1 }⟩ tJan5 true true).2 tJan5 true true).2.fs
      "a.log").map FileData.content = some "") := by
  refine ⟨by decide, by decide, by decide, by decide, by decide⟩

/-- The recovery core shared by the restart-seeding claims: opening over
an existing, non-directory, non-empty file with rotation and a line limit
on seeds `maxLinesCurLines` with the file's newline count and leaves the
content untouched. -/
theorem startLogger_seeds (w : fileLogWriter) (fs : FS) (now : GoTime) (p : Int) (d : FileData)
    (hrot : w.Rotate = true)
    (hml : 0 < w.MaxLines)
    (hlk : fsLookup fs w.Filename = some d)
    (hdir : d.isDir = false)
    (hne : d.content ≠ "")
    (hperm : parseOctal w.Perm = some p) :
    (startLogger w fs now).1 = none ∧
    (startLogger w fs now).2.1.maxLinesCurLines = Int.ofNat (d.content.toList.count '\n') ∧
    (fsLookup (startLogger w fs now).2.2 w.Filename).map FileData.content = some d.content ∧
    (startLogger w fs now).2.1.fileWriter = some w.Filename := by
  unfold startLogger createLogFile
  rw [hperm]
  simp only [hlk, hdir, Bool.false_eq_true, if_false]
  unfold initFd
  simp only [fsLookup_fsSet_self]
  rw [if_pos hrot]
  have hpos : strBytes (FileData.content { d with perm := p }) > 0 := strBytes_pos _ hne
  rw [if_pos ⟨hpos, hml⟩]
  unfold lines
  simp only [fsLookup_fsSet_self]
  rw [linesCount_count]
  exact ⟨trivial, rfl, by simp, trivial⟩

/-- C6: a pre-existing non-empty file of exactly `N` newline-terminated
lines, opened with rotation and a line limit enabled, seeds
`currentLineCount = N` — the count the chunked newline scan computes —
and leaves the file's content untouched. -/
theorem claim_C6 (w : fileLogWriter) (fs : FS) (now : GoTime) (N : Nat) (d : FileData) (p : Int)
    (hrot : w.Rotate = true)
    (hml : 0 < w.MaxLines)
    (hlk : fsLookup fs w.Filename = some d)
    (hdir : d.isDir = false)
    (hne : d.content ≠ "")
    (hterm : d.content.toList.getLast? = some '\n')
    (hcount : countNewlines d.content = N)
    (hperm : parseOctal w.Perm = some p) :
    (startLogger w fs now).1 = none ∧
    (startLogger w fs now).2.1.maxLinesCurLines = (N : Int) ∧
    (fsLookup (startLogger w fs now).2.2 w.Filename).map FileData.content = some d.content := by
  have h := startLogger_seeds w fs now p d hrot hml hlk hdir hne hperm
  refine ⟨h.1, ?_, h.2.2.1⟩
  rw [h.2.1]
  rw [← hcount]
  rfl

/-- C6 witness: a three-line file (`"a\nb\nc\n"`) seeds the counter to 3
with the content unchanged. -/
theorem claim_C6_witness :
    (startLogger { wBase with MaxLines := 10, fileWriter := none }
      [("a.log", ⟨"a\nb\nc\n", tJan5, 432, false⟩)] tJan5).1 = none ∧
    (startLogger { wBase with MaxLines := 10, fileWriter := none }
      [("a.log", ⟨"a\nb\nc\n", tJan5, 432, false⟩)] tJan5).2.1.maxLinesCurLines = (3 : Int) ∧
    (fsLookup (startLogger { wBase with MaxLines := 10, fileWriter := none }
      [("a.log", ⟨"a\nb\nc\n", tJan5, 432, false⟩)] tJan5).2.2 "a.log").map FileData.content =
      some "a\nb\nc\n" := by
  exact claim_C6 { wBase with MaxLines := 10, fileWriter := none }
    [("a.log", ⟨"a\nb\nc\n", tJan5, 432, false⟩)] tJan5 3 ⟨"a\nb\nc\n", tJan5, 432, false⟩ 432
    rfl (by decide) rfl rfl (by decide) (by decide) (by decide) (by decide)

/-- C10: a successful `WriteMsg` increments the line counter by exactly
one regardless of how many newline bytes the (stripped) message carries,
while reopening recovers the counter from the file's newline-byte count —
so after writing one message with `k` newlines into an empty file the
pre-restart count is 1 and the post-restart count is `k`, and they differ
whenever `k ≠ 1`. -/
theorem claim_C10 (wd : World) (when now : GoTime) (msg : String) (p : Int)
    (mt : GoTime) (pm : Int)
    (hrot : wd.w.Rotate = true)
    (hml : 0 < wd.w.MaxLines)
    (hcount : wd.w.maxLinesCurLines = 0)
    (hsz : wd.w.MaxSize ≤ 0 ∨ wd.w.maxSizeCurSize < wd.w.MaxSize)
    (hdy : wd.w.Daily = true → dayOf when = wd.w.DailyOpenDate)
    (hhr : wd.w.Hourly = true → hourOf when = wd.w.HourlyOpenDate)
    (hfd : wd.w.fileWriter = some wd.w.Filename)
    (hlk : fsLookup wd.fs wd.w.Filename = some ⟨"", mt, pm, false⟩)
    (hne : effMsg wd.w msg ≠ "")
    (hperm : parseOctal wd.w.Perm = some p) :
    (WriteMsg wd when msg true true true).err = none ∧
    (WriteMsg wd when msg true true true).world.w.maxLinesCurLines = 1 ∧
    (startLogger (WriteMsg wd when msg true true true).world.w
        (WriteMsg wd when msg true true true).world.fs now).2.1.maxLinesCurLines =
      Int.ofNat (countNewlines (effMsg wd.w msg)) ∧
    (countNewlines (effMsg wd.w msg) ≠ 1 →
      (WriteMsg wd when msg true true true).world.w.maxLinesCurLines ≠
      (startLogger (WriteMsg wd when msg true true true).world.w
        (WriteMsg wd when msg true true true).world.fs now).2.1.maxLinesCurLines) := by
  have hnr : (wd.w.Rotate &&
      needRotate wd.w (strBytes (effMsg wd.w msg)) (dayOf when) (hourOf when)) = false := by
    rw [hrot, Bool.true_and]
    exact needRotate_false (Or.inr (by omega)) hsz hdy hhr
  have hstep := WriteMsg_step_quiet wd when msg true true ⟨"", mt, pm, false⟩ hnr hfd hlk
  rw [hstep]
  have hseeds := startLogger_seeds
    { wd.w with maxLinesCurLines := wd.w.maxLinesCurLines + 1,
                maxSizeCurSize := wd.w.maxSizeCurSize + strBytes (effMsg wd.w msg) }
    (fsSet wd.fs wd.w.Filename ⟨"" ++ effMsg wd.w msg, when, pm, false⟩) now p
    ⟨"" ++ effMsg wd.w msg, when, pm, false⟩ hrot hml
    (by simpa using fsLookup_fsSet_self wd.fs wd.w.Filename _) rfl hne hperm
  refine ⟨rfl, by simp [hcount], ?_, ?_⟩
  · exact hseeds.2.1
  · intro hk1
    rw [hseeds.2.1]
    simp only [hcount, zero_add]
    intro hcontra
    apply hk1
    have : (1 : Int) = Int.ofNat 1 := rfl
    rw [this] at hcontra
    exact (Int.ofNat_inj.mp hcontra).symm

/-- C10 witness: the message `"x\n\n"` has `k = 2` newlines; the write
counts 1, recovery counts 2. -/
theorem claim_C10_witness :
    (WriteMsg ⟨fsBase, { wBase with MaxLines := 10 }⟩ tJan5 "x\n\n" true true true).err = none ∧
    (WriteMsg ⟨fsBase, { wBase with MaxLines := 10 }⟩ tJan5 "x\n\n"
      true true true).world.w.maxLinesCurLines = 1 ∧
    (startLogger (WriteMsg ⟨fsBase, { wBase with MaxLines := 10 }⟩ tJan5 "x\n\n"
        true true true).world.w
      (WriteMsg ⟨fsBase, { wBase with MaxLines := 10 }⟩ tJan5 "x\n\n"
        true true true).world.fs tJan5).2.1.maxLinesCurLines =
      Int.ofNat (countNewlines (effMsg { wBase with MaxLines := 10 } "x\n\n")) ∧
    (countNewlines (effMsg { wBase with MaxLines := 10 } "x\n\n") ≠ 1 →
      (WriteMsg ⟨fsBase, { wBase with MaxLines := 10 }⟩ tJan5 "x\n\n"
        true true true).world.w.maxLinesCurLines ≠
      (startLogger (WriteMsg ⟨fsBase, { wBase with MaxLines := 10 }⟩ tJan5 "x\n\n"
          true true true).world.w
        (WriteMsg ⟨fsBase, { wBase with MaxLines := 10 }⟩ tJan5 "x\n\n"
          true true true).world.fs tJan5).2.1.maxLinesCurLines) := by
  exact claim_C10 ⟨fsBase, { wBase with MaxLines := 10 }⟩ tJan5 tJan5 "x\n\n" 432 tJan5 432
    rfl (by decide) rfl (Or.inl (by decide)) (by intro _; decide) (by intro _; decide)
    rfl rfl (by decide) (by decide)

/-- C7 (counterexample): the registry is keyed by the raw configuration
string, not a canonical fingerprint: two payloads that differ only in
whitespace decode to the same configuration, yet sequential
`newFileWriter` calls create two distinct live registry entries (both
writers own `a.log`), falsifying "at most one live writer instance per
distinct configuration". -/
theorem claim_C7_counterexample :
    "\x7b\"filename\":\"a.log\"\x7d" ≠ "\x7b \"filename\":\"a.log\" \x7d" ∧
    unmarshalConfig "\x7b\"filename\":\"a.log\"\x7d" defaultWriter =
      unmarshalConfig "\x7b \"filename\":\"a.log\" \x7d" defaultWriter ∧
    (newFileWriter
      (newFileWriter [] "\x7b\"filename\":\"a.log\"\x7d" [] tJan5).2.1
      "\x7b \"filename\":\"a.log\" \x7d"
      (newFileWriter [] "\x7b\"filename\":\"a.log\"\x7d" [] tJan5).2.2 tJan5).2.1.length = 2 ∧
    ((newFileWriter [] "\x7b\"filename\":\"a.log\"\x7d" [] tJan5).1.map fileLogWriter.Filename
      = some "a.log") ∧
    ((newFileWriter
      (newFileWriter [] "\x7b\"filename\":\"a.log\"\x7d" [] tJan5).2.1
      "\x7b \"filename\":\"a.log\" \x7d"
      (newFileWriter [] "\x7b\"filename\":\"a.log\"\x7d" [] tJan5).2.2 tJan5).1.map
        fileLogWriter.Filename = some "a.log") := by
  refine ⟨by decide, by decide, by decide, by decide, by decide⟩

/-- C7 (amended): the registry is keyed by the verbatim `jsonConfig`
string; a repeated identical string returns the cached `WriterState`
unchanged, ignoring everything else — so there is at most one live writer
per distinct configuration *string*, while distinct strings denoting the
same configuration yield distinct writers. -/
theorem claim_C7_amended (inst : List (String × fileLogWriter)) (s : String)
    (v : fileLogWriter) (fs : FS) (now : GoTime)
    (h : regLookup inst s = some v) :
    newFileWriter inst s fs now = (some v, inst, fs) := by
  unfold newFileWriter
  rw [h]

/-- C7 witness: a cached entry is returned as-is, with the registry and
directory untouched. -/
theorem claim_C7_amended_witness :
    newFileWriter [("cfg", wBase)] "cfg" fsBase tJan5 = (some wBase, [("cfg", wBase)], fsBase) :=
  claim_C7_amended [("cfg", wBase)] "cfg" wBase fsBase tJan5 (by decide)

/-- C8 (counterexample): the sweep has no special case for the active
file — with `maxDays = 7`, an active file whose modification time is
eight days old matches the prefix/suffix test and is deleted, so "leaves
the active file untouched" fails for this set of files. -/
theorem claim_C8_counterexample :
    wBase.Filename = "a.log" ∧
    shouldDelete wBase (tJan5 + 8 * 86400) ("a.log", ⟨"live", tJan5, 432, false⟩) = true ∧
    deleteOldLog wBase (tJan5 + 8 * 86400) [("a.log", ⟨"live", tJan5, 432, false⟩)] = [] := by
  refine ⟨by decide, by decide, by decide⟩

/-- C8 (amended): a sweep at `now` deletes exactly the non-directory
entries whose name starts with the base name and ends with the suffix and
whose modification time is older than `now` minus `maxDays` days — with
no special-casing of the active file: it too is deleted when it matches
and is old, and everything newer or non-matching survives. -/
theorem claim_C8_amended (w : fileLogWriter) (now : GoTime) (fs : FS)
    (name : String) (data : FileData) :
    (name, data) ∈ deleteOldLog w now fs ↔
      ((name, data) ∈ fs ∧
        ¬(data.isDir = false ∧ data.modTime + 24 * 3600 * w.MaxDays < now ∧
          hasPrefixGo name w.fileNameOnly = true ∧ hasSuffixGo name w.suffix = true)) := by
  unfold deleteOldLog
  rw [List.mem_filter]
  constructor
  · rintro ⟨hmem, hcond⟩
    refine ⟨hmem, ?_⟩
    rintro ⟨hd, hold, hpre, hsuf⟩
    rw [Bool.not_eq_true', Bool.eq_false_iff] at hcond
    refine hcond ?_
    simp only [shouldDelete, hd, hpre, hsuf, Bool.not_false, Bool.and_true, Bool.true_and,
      Bool.and_eq_true, decide_eq_true_eq]
    exact hold
  · rintro ⟨hmem, hcond⟩
    refine ⟨hmem, ?_⟩
    rw [Bool.not_eq_true', Bool.eq_false_iff]
    intro hsd
    apply hcond
    simp only [shouldDelete, Bool.and_eq_true, Bool.not_eq_true', decide_eq_true_eq] at hsd
    exact ⟨hsd.1.1.1, hsd.1.1.2, hsd.1.2, hsd.2⟩

end LogrusFile
